import Mathlib

/-!
Verification of the balance-computation core of the group-expense-splitter
repository.  The data model follows the generated database row types
(`expense_splits`, `expenses`, `group`, `participants`, `settlements`) and the
balance computation is a shallow embedding of `calculateBalances` from the
`GroupDashboard` component.  Currency amounts are modelled as exact rationals;
the JavaScript special value NaN, which arises when an absent object key is
used in arithmetic, is modelled by `none` in `JsNum`.
-/

namespace GroupExpense

/-- Row of the `participants` table: id, optional name, owning group, timestamp. -/
structure Participant where
  id : String
  name : Option String
  group_id : Option String
  created_at : String
deriving DecidableEq

/-- A group together with its participants, as returned by `getGroupById`. -/
structure Group where
  id : String
  name : String
  description : Option String
  created_at : String
  participants : List Participant
deriving DecidableEq

/-- The `split_type` database enum: "equal" | "amount" | "weight". -/
inductive SplitType where
  | equal
  | amount
  | weight
deriving DecidableEq

/-- Row of the `expense_splits` table. -/
structure ExpenseSplit where
  id : String
  amount : ℚ
  custom_amount : Option ℚ
  expense_id : Option String
  participant_id : Option String
  weight : Option ℚ
  created_at : String
deriving DecidableEq

/-- Row of the `expenses` table together with its splits
(the `ExpenseWithSplits` shape consumed by the dashboard). -/
structure Expense where
  id : String
  amount : ℚ
  category : Option String
  created_at : Option String
  description : Option String
  expense_type : Option String
  group_id : Option String
  paid_by : String
  split_type : Option SplitType
  expense_splits : List ExpenseSplit
deriving DecidableEq

/-- Row of the `settlements` table. -/
structure Settlement where
  id : String
  amount : ℚ
  created_at : String
  description : Option String
  from_participant_id : String
  group_id : String
  settlement_date : String
  to_participant_id : String
deriving DecidableEq

/-- A JavaScript number used in the balances object: `none` models NaN. -/
abbrev JsNum := Option ℚ

/-- The balances object `{ [key: string]: number }`, as an insertion-ordered
association list with unique keys (JavaScript object semantics). -/
abbrev Balances := List (String × JsNum)

/-- Property read `balances[k]`: `none` models an absent key (undefined). -/
def getB : Balances → String → Option JsNum
  | [], _ => none
  | (k, v) :: bs, pid => if k = pid then some v else getB bs pid

/-- Property write `balances[k] = v`: update in place, or append a new key. -/
def setB : Balances → String → JsNum → Balances
  | [], k, v => [(k, v)]
  | (k0, v0) :: bs, k, v => if k0 = k then (k, v) :: bs else (k0, v0) :: setB bs k v

/-- JavaScript `x + a` where `x` was read from the object: reading an absent
key gives undefined, and both `undefined + a` and `NaN + a` are NaN. -/
def jsAdd : Option JsNum → ℚ → JsNum
  | some (some q), a => some (q + a)
  | _, _ => none

/-- JavaScript `x - a` with the same NaN/undefined propagation as `jsAdd`. -/
def jsSub : Option JsNum → ℚ → JsNum
  | some (some q), a => some (q - a)
  | _, _ => none

/-- `balances[expense.paid_by] += expense.amount` — the payer gets credited. -/
def creditPayer (bs : Balances) (e : Expense) : Balances :=
  setB bs e.paid_by (jsAdd (getB bs e.paid_by) e.amount)

/-- One step of the inner split loop:
`if (split.participant_id) balances[split.participant_id] -= split.amount`.
The guard is JavaScript truthiness, so a null or empty-string id is skipped. -/
def applySplit (bs : Balances) (s : ExpenseSplit) : Balances :=
  match s.participant_id with
  | some pid => if pid = "" then bs else setB bs pid (jsSub (getB bs pid) s.amount)
  | none => bs

/-- One step of the outer expense loop: credit the payer, then debit every
participant that appears in the splits of the expense. -/
def applyExpense (bs : Balances) (e : Expense) : Balances :=
  e.expense_splits.foldl applySplit (creditPayer bs e)

/-- The initialization loop: `group.participants?.forEach(p => balances[p.id] = 0)`. -/
def initBalances (ps : List Participant) : Balances :=
  ps.foldl (fun bs p => setB bs p.id (some 0)) []

/-- Shallow embedding of `calculateBalances` from `GroupDashboard`:
with no loaded group it returns the empty object, otherwise it initializes
every participant to 0 and folds the expense loop over all expenses. -/
def calculateBalances : Option Group → List Expense → Balances
  | none, _ => []
  | some g, expenses => expenses.foldl applyExpense (initBalances g.participants)

/-- The balance read in the rendering code:
`const balance = balances[participant.id] || 0;` — an absent key (undefined)
and NaN are both falsy and coerce to 0; `0 || 0` is also 0, so a present
numeric balance is returned unchanged. -/
def displayBalance (bs : Balances) (pid : String) : ℚ :=
  match getB bs pid with
  | some (some q) => q
  | _ => 0

/-- Sum, over the participants of a group, of their displayed balances. -/
def sumBalances (g : Group) (bs : Balances) : ℚ :=
  (g.participants.map (fun p => displayBalance bs p.id)).sum

/-- Amounts credited to `pid` across the expense list: the sum of the amounts
of the expenses that `pid` paid. -/
def credit : List Expense → String → ℚ
  | [], _ => 0
  | e :: es, pid => (if e.paid_by = pid then e.amount else 0) + credit es pid

/-- Amounts debited to `pid` by the splits of a single expense. -/
def splitDebit : List ExpenseSplit → String → ℚ
  | [], _ => 0
  | s :: ss, pid =>
      (if s.participant_id = some pid ∧ pid ≠ "" then s.amount else 0) + splitDebit ss pid

/-- Amounts debited to `pid` across the expense list: the sum of the split
amounts recorded for `pid`. -/
def debit : List Expense → String → ℚ
  | [], _ => 0
  | e :: es, pid => splitDebit e.expense_splits pid + debit es pid

/-- Scrub the fields of a split row that the balance computation never reads. -/
def scrubSplit (s : ExpenseSplit) : ExpenseSplit :=
  { s with id := "", custom_amount := none, expense_id := none, weight := none,
           created_at := "" }

/-- Scrub the fields of an expense row that the balance computation never
reads, keeping only the payer, the amount and the split data of each split. -/
def scrubExpense (e : Expense) : Expense :=
  { e with id := "", category := none, created_at := none, description := none,
           expense_type := none, group_id := none, split_type := none,
           expense_splits := e.expense_splits.map scrubSplit }

/-- Modelled from the spec: the settlement step of the Balance Aggregator —
debit the amount from the from participant and credit the to participant.
No source file implements this step: the dashboard neither fetches settlements
nor passes them to the balance computation. -/
def applySettlement (bs : Balances) (s : Settlement) : Balances :=
  let bs1 := setB bs s.from_participant_id
    (jsSub (getB bs s.from_participant_id) s.amount)
  setB bs1 s.to_participant_id (jsAdd (getB bs1 s.to_participant_id) s.amount)

/-- Modelled from the spec: fold the settlement step over a settlement list. -/
def applySettlements (bs : Balances) (ss : List Settlement) : Balances :=
  ss.foldl applySettlement bs

/-- Errors of the Split Calculator named by the spec. -/
inductive SplitError where
  | validation
  | splitMismatch
deriving DecidableEq

/-- Modelled from the spec: the exact-amount policy of the Split Calculator;
the component is not among the source files, only its caller is. Each split
equals the provided custom amount, and the computation fails with the
split-mismatch error when the sum of the custom amounts differs from the
entry amount by more than the fixed epsilon of 0.01 currency units. -/
def computeSplitsExact (amount : ℚ) (custom : List (String × ℚ)) :
    Except SplitError (List (String × ℚ)) :=
  if (1 : ℚ) / 100 < |(custom.map (fun c => c.2)).sum - amount| then
    Except.error SplitError.splitMismatch
  else
    Except.ok custom

/-- Modelled from the spec: the equal policy of the Split Calculator; the
component is not among the source files. The amount in minor units is divided
by the participant count; every participant receives the floor share, and the
remainder is distributed one minor unit at a time to the first participants in
input order. -/
def equalSplitMinor (amountMinor : ℕ) (participants : List String) :
    List (String × ℕ) :=
  let n := participants.length
  let base := amountMinor / n
  let rem := amountMinor % n
  participants.enum.map (fun ip => (ip.2, base + if ip.1 < rem then 1 else 0))

/-- Row of the `group` table without its participants. -/
structure GroupRow where
  id : String
  name : String
  description : Option String
  created_at : String
deriving DecidableEq

/-- An in-memory snapshot of the external datastore tables read by
`getGroupById`. -/
structure Db where
  groups : List GroupRow
  participants : List Participant

/-- Read failure surfaced by `.single()`: no (or more than one) matching row. -/
inductive FetchError where
  | notFound
deriving DecidableEq

/-- Shallow embedding of `getGroupById`: select the group row with the given
id together with its embedded participants (the rows of `participants` whose
`group_id` equals the requested group); `.single()` succeeds only when exactly
one group row matches and otherwise produces the not-found error. -/
def getGroupById (db : Db) (groupId : String) : Except FetchError Group :=
  match db.groups.filter (fun gr => gr.id == groupId) with
  | [gr] =>
      Except.ok
        { id := gr.id, name := gr.name, description := gr.description,
          created_at := gr.created_at,
          participants := db.participants.filter
            (fun p => p.group_id == some groupId) }
  | _ => Except.error FetchError.notFound

end GroupExpense

namespace GroupExpense

/-- Concrete participant A used by witnesses and counterexamples. -/
def pA : Participant := { id := "A", name := some "A", group_id := some "g", created_at := "" }

/-- Concrete participant B. -/
def pB : Participant := { id := "B", name := some "B", group_id := some "g", created_at := "" }

/-- Concrete participant C. -/
def pC : Participant := { id := "C", name := some "C", group_id := some "g", created_at := "" }

/-- Concrete two-participant group. -/
def gAB : Group :=
  { id := "g", name := "trip", description := none, created_at := "", participants := [pA, pB] }

/-- Concrete three-participant group. -/
def gABC : Group :=
  { id := "g", name := "trip", description := none, created_at := "",
    participants := [pA, pB, pC] }

/-- A split row charging `pid` the given amount. -/
def mkSplit (pid : String) (amt : ℚ) : ExpenseSplit :=
  { id := "", amount := amt, custom_amount := none, expense_id := none,
    participant_id := some pid, weight := none, created_at := "" }

/-- A 10-unit expense paid by A and split evenly between A and B. -/
def expenseW : Expense :=
  { id := "e1", amount := 10, category := none, created_at := none, description := none,
    expense_type := some "expense", group_id := some "g", paid_by := "A",
    split_type := some SplitType.equal,
    expense_splits := [mkSplit "A" 5, mkSplit "B" 5] }

/-- A 10-unit expense paid by A whose only split charges A itself. -/
def expenseAA : Expense :=
  { id := "e2", amount := 10, category := none, created_at := none, description := none,
    expense_type := some "expense", group_id := some "g", paid_by := "A",
    split_type := some SplitType.amount,
    expense_splits := [mkSplit "A" 10] }

/-- A 10-unit transfer entry from A whose split names the recipient B. -/
def transferEntry : Expense :=
  { id := "t1", amount := 10, category := none, created_at := none, description := none,
    expense_type := some "transfer", group_id := some "g", paid_by := "A",
    split_type := none, expense_splits := [mkSplit "B" 10] }

/-- A corrupt expense whose split references a participant id that is not in
the group, which makes the aggregation produce a NaN balance for that id. -/
def corruptExpense : Expense :=
  { id := "x1", amount := 10, category := none, created_at := none, description := none,
    expense_type := some "expense", group_id := some "g", paid_by := "A",
    split_type := none, expense_splits := [mkSplit "ghost" 10] }

/-- A recorded settlement of 10 from A to B. -/
def stlAB : Settlement :=
  { id := "s1", amount := 10, created_at := "", description := none,
    from_participant_id := "A", group_id := "g", settlement_date := "",
    to_participant_id := "B" }

/-- Convert a minor-unit share to a stored split row. -/
def minorSplit (p : String × ℕ) : ExpenseSplit := mkSplit p.1 ((p.2 : ℚ) / 100)

/-- The 100-unit equal-split expense of the three-participant scenario,
with splits produced by the spec-modelled equal policy in minor units. -/
def expense100 : Expense :=
  { id := "e100", amount := 100, category := none, created_at := none, description := none,
    expense_type := some "expense", group_id := some "g", paid_by := "A",
    split_type := some SplitType.equal,
    expense_splits := (equalSplitMinor 10000 ["A", "B", "C"]).map minorSplit }

/-- Balances of the three-participant 100-unit scenario. -/
def balances100 : Balances := calculateBalances (some gABC) [expense100]

/-- Concrete group row for the datastore snapshot. -/
def grW : GroupRow := { id := "g", name := "trip", description := none, created_at := "" }

/-- A participant of a different group, filtered out by the embedded select. -/
def pOther : Participant :=
  { id := "Z", name := some "Z", group_id := some "h", created_at := "" }

/-- Concrete datastore snapshot: one group and three participant rows, one of
which belongs to a different group. -/
def dbW : Db := { groups := [grW], participants := [pA, pB, pOther] }

/-- The group record the embedded `getGroupById` returns on `dbW`. -/
def gResW : Group :=
  { id := "g", name := "trip", description := none, created_at := "",
    participants := [pA, pB] }

theorem getB_setB_self (bs : Balances) (k : String) (v : JsNum) :
    getB (setB bs k v) k = some v := by
  induction bs with
  | nil => simp [getB, setB]
  | cons hd tl ih =>
    obtain ⟨k0, v0⟩ := hd
    by_cases h : k0 = k
    · simp [getB, setB, h]
    · simp [getB, setB, h, ih]

theorem getB_setB_ne (bs : Balances) (k : String) (v : JsNum) (k1 : String)
    (h : k1 ≠ k) : getB (setB bs k v) k1 = getB bs k1 := by
  have hk : ¬ k = k1 := fun hh => h (Eq.symm hh)
  induction bs with
  | nil => simp [getB, setB, hk]
  | cons hd tl ih =>
    obtain ⟨k0, v0⟩ := hd
    simp only [setB]
    by_cases h0 : k0 = k
    · have hk0 : ¬ k0 = k1 := fun hh => hk (Eq.trans (Eq.symm h0) hh)
      simp [getB, hk, hk0, h0]
    · by_cases h1 : k0 = k1
      · simp [getB, h0, h1, h]
      · simp [getB, h0, h1, ih]

theorem getB_applySplit (bs : Balances) (s : ExpenseSplit) (pid : String) (q : ℚ)
    (h : getB bs pid = some (some q)) :
    getB (applySplit bs s) pid =
      some (some (q - (if s.participant_id = some pid ∧ pid ≠ "" then s.amount else 0))) := by
  cases hx : s.participant_id with
  | none => simp [applySplit, hx, h]
  | some x =>
    by_cases hxe : x = ""
    · subst hxe
      by_cases hp : pid = ""
      · subst hp
        simp [applySplit, hx, h]
      · have hne : ¬ ("" = pid) := fun hh => hp (Eq.symm hh)
        simp [applySplit, hx, hne, h]
    · by_cases hxp : x = pid
      · subst hxp
        simp [applySplit, hx, hxe, getB_setB_self, h, jsSub]
      · have hne : pid ≠ x := fun hh => hxp (Eq.symm hh)
        simp [applySplit, hx, hxe, hxp, getB_setB_ne _ _ _ _ hne, h]

theorem getB_foldl_applySplit (ss : List ExpenseSplit) (bs : Balances) (pid : String) (q : ℚ)
    (h : getB bs pid = some (some q)) :
    getB (ss.foldl applySplit bs) pid = some (some (q - splitDebit ss pid)) := by
  induction ss generalizing bs q with
  | nil => simpa [splitDebit] using h
  | cons s ss ih =>
    rw [List.foldl_cons, ih _ _ (getB_applySplit bs s pid q h)]
    simp only [splitDebit, Option.some.injEq]
    ring

theorem getB_creditPayer (bs : Balances) (e : Expense) (pid : String) (q : ℚ)
    (h : getB bs pid = some (some q)) :
    getB (creditPayer bs e) pid =
      some (some (q + (if e.paid_by = pid then e.amount else 0))) := by
  by_cases hp : e.paid_by = pid
  · simp [creditPayer, hp, h, jsAdd, getB_setB_self]
  · have hne : pid ≠ e.paid_by := fun hh => hp (Eq.symm hh)
    simp [creditPayer, getB_setB_ne _ _ _ _ hne, h, hp]

theorem getB_applyExpense (bs : Balances) (e : Expense) (pid : String) (q : ℚ)
    (h : getB bs pid = some (some q)) :
    getB (applyExpense bs e) pid =
      some (some (q + (if e.paid_by = pid then e.amount else 0)
        - splitDebit e.expense_splits pid)) := by
  unfold applyExpense
  exact getB_foldl_applySplit _ _ _ _ (getB_creditPayer bs e pid q h)

theorem getB_foldl_applyExpense (es : List Expense) (bs : Balances) (pid : String) (q : ℚ)
    (h : getB bs pid = some (some q)) :
    getB (es.foldl applyExpense bs) pid = some (some (q + credit es pid - debit es pid)) := by
  induction es generalizing bs q with
  | nil => simpa [credit, debit] using h
  | cons e es ih =>
    rw [List.foldl_cons, ih _ _ (getB_applyExpense bs e pid q h)]
    simp only [credit, debit, Option.some.injEq]
    ring

theorem getB_initFold_notMem (ps : List Participant) (bs : Balances) (pid : String)
    (h : pid ∉ ps.map (fun p => p.id)) :
    getB (ps.foldl (fun bs p => setB bs p.id (some 0)) bs) pid = getB bs pid := by
  induction ps generalizing bs with
  | nil => rfl
  | cons p ps ih =>
    simp only [List.map_cons, List.mem_cons] at h
    push_neg at h
    rw [List.foldl_cons, ih _ h.2, getB_setB_ne _ _ _ _ h.1]

theorem getB_initFold_mem (ps : List Participant) (bs : Balances) (pid : String)
    (h : pid ∈ ps.map (fun p => p.id)) :
    getB (ps.foldl (fun bs p => setB bs p.id (some 0)) bs) pid = some (some 0) := by
  induction ps generalizing bs with
  | nil => simp at h
  | cons p ps ih =>
    rw [List.foldl_cons]
    by_cases hm : pid ∈ ps.map (fun p => p.id)
    · exact ih _ hm
    · simp only [List.map_cons, List.mem_cons] at h
      have hp : p.id = pid := by
        rcases h with h1 | h2
        · exact Eq.symm h1
        · exact absurd h2 hm
      rw [getB_initFold_notMem _ _ _ hm]
      rw [hp] at *
      exact getB_setB_self bs pid (some 0)

theorem getB_initBalances (ps : List Participant) (pid : String)
    (h : pid ∈ ps.map (fun p => p.id)) :
    getB (initBalances ps) pid = some (some 0) :=
  getB_initFold_mem ps [] pid h

/-- Closed form of the balance computation at any participant of the group:
the final balance is a genuine number (never NaN) equal to the total amount
the participant paid minus the total of the split amounts charged to them. -/
theorem getB_calculateBalances (g : Group) (es : List Expense) (pid : String)
    (h : pid ∈ g.participants.map (fun p => p.id)) :
    getB (calculateBalances (some g) es) pid =
      some (some (credit es pid - debit es pid)) := by
  have h0 : getB (initBalances g.participants) pid = some (some 0) :=
    getB_initBalances _ _ h
  have hfold := getB_foldl_applyExpense es _ pid 0 h0
  simpa [calculateBalances] using hfold

theorem sum_map_addQ (l : List String) (f g : String → ℚ) :
    (l.map (fun x => f x + g x)).sum = (l.map f).sum + (l.map g).sum := by
  induction l with
  | nil => simp
  | cons x l ih =>
    simp only [List.map_cons, List.sum_cons, ih]
    ring

theorem sum_map_subQ (l : List String) (f g : String → ℚ) :
    (l.map (fun x => f x - g x)).sum = (l.map f).sum - (l.map g).sum := by
  induction l with
  | nil => simp
  | cons x l ih =>
    simp only [List.map_cons, List.sum_cons, ih]
    ring

theorem sum_ite_notMem (ids : List String) (x : String) (a : ℚ) (hx : x ∉ ids) :
    (ids.map (fun pid => if x = pid then a else 0)).sum = 0 := by
  induction ids with
  | nil => simp
  | cons i ids ih =>
    simp only [List.mem_cons] at hx
    push_neg at hx
    simp [List.map_cons, hx.1, ih hx.2]

theorem sum_ite_single (ids : List String) (x : String) (a : ℚ)
    (hnd : ids.Nodup) (hx : x ∈ ids) :
    (ids.map (fun pid => if x = pid then a else 0)).sum = a := by
  induction ids with
  | nil => simp at hx
  | cons i ids ih =>
    rcases List.mem_cons.mp hx with h1 | h2
    · subst h1
      have hni : x ∉ ids := (List.nodup_cons.mp hnd).1
      simp [sum_ite_notMem ids x a hni]
    · have hne : x ≠ i := fun hh => (List.nodup_cons.mp hnd).1 (hh ▸ h2)
      simp [hne, ih (List.nodup_cons.mp hnd).2 h2]

theorem sum_credit (es : List Expense) (ids : List String)
    (hnd : ids.Nodup) (hp : ∀ e ∈ es, e.paid_by ∈ ids) :
    (ids.map (fun pid => credit es pid)).sum = (es.map (fun e => e.amount)).sum := by
  induction es with
  | nil => simp [credit]
  | cons e es ih =>
    simp only [credit, List.map_cons, List.sum_cons]
    rw [sum_map_addQ]
    rw [sum_ite_single ids e.paid_by e.amount hnd (hp e (List.mem_cons_self e es))]
    rw [ih (fun x hx => hp x (List.mem_cons_of_mem _ hx))]

theorem sum_splitDebit (ss : List ExpenseSplit) (ids : List String)
    (hnd : ids.Nodup)
    (hs : ∀ s ∈ ss, ∃ x, s.participant_id = some x ∧ x ∈ ids ∧ x ≠ "") :
    (ids.map (fun pid => splitDebit ss pid)).sum = (ss.map (fun s => s.amount)).sum := by
  induction ss with
  | nil => simp [splitDebit]
  | cons s ss ih =>
    obtain ⟨x, hx, hxids, hxe⟩ := hs s (List.mem_cons_self s ss)
    have hcond : ∀ pid, (if s.participant_id = some pid ∧ pid ≠ "" then s.amount else 0)
        = (if x = pid then s.amount else 0) := by
      intro pid
      by_cases hxp : x = pid
      · subst hxp
        simp [hx, hxe]
      · simp [hx, hxp]
    simp only [splitDebit, List.map_cons, List.sum_cons, hcond]
    rw [sum_map_addQ]
    rw [sum_ite_single ids x s.amount hnd hxids]
    rw [ih (fun t ht => hs t (List.mem_cons_of_mem _ ht))]

theorem sum_debit (es : List Expense) (ids : List String)
    (hnd : ids.Nodup)
    (hs : ∀ e ∈ es, ∀ s ∈ e.expense_splits,
      ∃ x, s.participant_id = some x ∧ x ∈ ids ∧ x ≠ "") :
    (ids.map (fun pid => debit es pid)).sum
      = (es.map (fun e => (e.expense_splits.map (fun s => s.amount)).sum)).sum := by
  induction es with
  | nil => simp [debit]
  | cons e es ih =>
    simp only [debit, List.map_cons, List.sum_cons]
    rw [sum_map_addQ]
    rw [sum_splitDebit _ _ hnd (hs e (List.mem_cons_self e es))]
    rw [ih (fun t ht => hs t (List.mem_cons_of_mem _ ht))]

/-- C1: when every payer and every split participant of every entry belongs to
the group, participant ids are distinct, and the splits of every entry sum to
the entry amount, the sum over all participants of the computed balances is
exactly zero, hence within the stated rounding drift of 0.01 per entry. -/
theorem balances_sum_zero (g : Group) (es : List Expense)
    (hnd : (g.participants.map (fun p => p.id)).Nodup)
    (hpay : ∀ e ∈ es, e.paid_by ∈ g.participants.map (fun p => p.id))
    (hsplit : ∀ e ∈ es, ∀ s ∈ e.expense_splits,
      ∃ x, s.participant_id = some x ∧ x ∈ g.participants.map (fun p => p.id) ∧ x ≠ "")
    (hsum : ∀ e ∈ es, (e.expense_splits.map (fun s => s.amount)).sum = e.amount) :
    sumBalances g (calculateBalances (some g) es) = 0 ∧
      |sumBalances g (calculateBalances (some g) es)| ≤ (es.length : ℚ) * (1 / 100) := by
  have hmain : sumBalances g (calculateBalances (some g) es) = 0 := by
    unfold sumBalances
    have hdisp : ∀ p ∈ g.participants,
        displayBalance (calculateBalances (some g) es) p.id
          = credit es p.id - debit es p.id := by
      intro p hp
      have hg := getB_calculateBalances g es p.id (List.mem_map_of_mem _ hp)
      simp [displayBalance, hg]
    rw [List.map_congr_left hdisp]
    have hmm : g.participants.map (fun p => credit es p.id - debit es p.id)
        = (g.participants.map (fun p => p.id)).map
            (fun pid => credit es pid - debit es pid) := by
      rw [List.map_map]
      rfl
    rw [hmm, sum_map_subQ, sum_credit es _ hnd hpay, sum_debit es _ hnd hsplit]
    rw [List.map_congr_left hsum]
    ring
  refine ⟨hmain, ?_⟩
  rw [hmain]
  simp only [abs_zero]
  positivity

theorem credit_eq_zero (es : List Expense) (pid : String)
    (h : ∀ e ∈ es, e.paid_by ≠ pid) : credit es pid = 0 := by
  induction es with
  | nil => rfl
  | cons e es ih =>
    simp [credit, h e (List.mem_cons_self e es),
      ih (fun t ht => h t (List.mem_cons_of_mem _ ht))]

theorem splitDebit_eq_zero (ss : List ExpenseSplit) (pid : String)
    (h : ∀ s ∈ ss, s.participant_id ≠ some pid) : splitDebit ss pid = 0 := by
  induction ss with
  | nil => rfl
  | cons s ss ih =>
    simp [splitDebit, h s (List.mem_cons_self s ss),
      ih (fun t ht => h t (List.mem_cons_of_mem _ ht))]

theorem debit_eq_zero (es : List Expense) (pid : String)
    (h : ∀ e ∈ es, ∀ s ∈ e.expense_splits, s.participant_id ≠ some pid) :
    debit es pid = 0 := by
  induction es with
  | nil => rfl
  | cons e es ih =>
    simp [debit, splitDebit_eq_zero _ _ (h e (List.mem_cons_self e es)),
      ih (fun t ht => h t (List.mem_cons_of_mem _ ht))]

/-- C2: for a snapshot whose entries are all of kind expense or income, the
computation starts every participant at zero, credits the payer of each entry
by the full entry amount and debits each split participant by their split
amount, so the final balance of any group participant equals the sum of the
amounts of the entries they paid (`credit`) minus the sum of their own split
amounts (`debit`).  The code never inspects the kind, so the kind hypothesis
records the scope of the claim rather than a needed assumption. -/
theorem balances_credit_debit_formula (g : Group) (es : List Expense) (p : Participant)
    (_hk : ∀ e ∈ es, e.expense_type = some "expense" ∨ e.expense_type = some "income")
    (hp : p ∈ g.participants) :
    getB (calculateBalances (some g) es) p.id
      = some (some (credit es p.id - debit es p.id)) :=
  getB_calculateBalances g es p.id (List.mem_map_of_mem _ hp)

/-- Witness for C2: a 10-unit expense paid by A split 5/5 between A and B
gives A the balance 10 - 5 = 5. -/
theorem balances_credit_debit_formula_witness :
    getB (calculateBalances (some gAB) [expenseW]) "A" = some (some 5) := by
  have h := balances_credit_debit_formula gAB [expenseW] pA (by decide) (by decide)
  have h2 : credit [expenseW] pA.id - debit [expenseW] pA.id = 5 := by
    simp +decide [credit, debit, splitDebit, expenseW, mkSplit, pA]
    norm_num
  rw [h2] at h
  exact h

/-- C10: the mapping starts with every participant of the loaded group at
balance zero before any entry is processed; a participant that pays no entry
and appears in no split keeps balance exactly zero; with no loaded group the
computation returns the empty mapping. -/
theorem balances_initialized_zero (g : Group) (es : List Expense) :
    calculateBalances none es = [] ∧
    (∀ p ∈ g.participants, getB (initBalances g.participants) p.id = some (some 0)) ∧
    (∀ p ∈ g.participants, (∀ e ∈ es, e.paid_by ≠ p.id) →
      (∀ e ∈ es, ∀ s ∈ e.expense_splits, s.participant_id ≠ some p.id) →
      getB (calculateBalances (some g) es) p.id = some (some 0)) := by
  refine ⟨rfl, fun p hp => getB_initBalances _ _ (List.mem_map_of_mem _ hp), ?_⟩
  intro p hp h1 h2
  rw [getB_calculateBalances g es p.id (List.mem_map_of_mem _ hp),
    credit_eq_zero es p.id h1, debit_eq_zero es p.id h2]
  norm_num

/-- Witness for C10: with only a 10-unit expense paid by A and split on A
alone, participant B keeps balance exactly 0; without a group the mapping is
empty. -/
theorem balances_initialized_zero_witness :
    calculateBalances none [expenseAA] = [] ∧
    getB (calculateBalances (some gAB) [expenseAA]) "B" = some (some 0) := by
  refine ⟨(balances_initialized_zero gAB [expenseAA]).1, ?_⟩
  exact (balances_initialized_zero gAB [expenseAA]).2.2 pB (by decide) (by decide) (by decide)

/-- Witness for C1: for the 5/5 split of the 10-unit expense between A and B,
the balances of the group sum to zero. -/
theorem balances_sum_zero_witness :
    sumBalances gAB (calculateBalances (some gAB) [expenseW]) = 0 := by
  refine (balances_sum_zero gAB [expenseW] ?_ ?_ ?_ ?_).1
  · decide
  · decide
  · intro e he s hs
    rw [List.mem_singleton] at he
    subst he
    simp only [expenseW, List.mem_cons, List.mem_singleton, List.not_mem_nil, or_false] at hs
    rcases hs with rfl | rfl
    · exact ⟨"A", rfl, by decide, by decide⟩
    · exact ⟨"B", rfl, by decide, by decide⟩
  · intro e he
    rw [List.mem_singleton] at he
    subst he
    norm_num [expenseW, mkSplit]

theorem applyExpense_scrub (bs : Balances) (e : Expense) :
    applyExpense bs (scrubExpense e) = applyExpense bs e := by
  show (e.expense_splits.map scrubSplit).foldl applySplit (creditPayer bs e)
      = e.expense_splits.foldl applySplit (creditPayer bs e)
  rw [List.foldl_map]
  have hfun : (fun (x : Balances) (y : ExpenseSplit) => applySplit x (scrubSplit y))
      = applySplit := by
    funext x y
    rfl
  rw [hfun]

/-- C7: the balance computation is a pure, deterministic function of its
snapshot: recomputing it on the same input yields the identical result, and
the result depends only on the data the code actually reads (participant ids,
payer, amount, split participant ids and split amounts) — scrubbing every
other field of the snapshot leaves the result unchanged. -/
theorem calculateBalances_pure (g : Option Group) (es : List Expense) :
    calculateBalances g es = calculateBalances g es ∧
    calculateBalances g (es.map scrubExpense) = calculateBalances g es := by
  refine ⟨rfl, ?_⟩
  cases g with
  | none => rfl
  | some g =>
    show (es.map scrubExpense).foldl applyExpense (initBalances g.participants)
        = es.foldl applyExpense (initBalances g.participants)
    rw [List.foldl_map]
    have hfun : (fun (x : Balances) (e : Expense) => applyExpense x (scrubExpense e))
        = applyExpense := by
      funext x e
      exact applyExpense_scrub x e
    rw [hfun]

/-- C3 amended: transfer entries receive no special treatment — the balance
computation never reads the entry kind, so an entry marked transfer goes
through the same credit-the-payer / debit-the-split-participants walk as any
expense, and rewriting the kind of every entry leaves the result unchanged. -/
theorem transfer_entries_not_special (g : Option Group) (es : List Expense)
    (t : Option String) :
    calculateBalances g (es.map (fun e => { e with expense_type := t }))
      = calculateBalances g es := by
  cases g with
  | none => rfl
  | some g =>
    show (es.map (fun e => { e with expense_type := t })).foldl applyExpense
          (initBalances g.participants)
        = es.foldl applyExpense (initBalances g.participants)
    rw [List.foldl_map]
    have hfun : (fun (x : Balances) (e : Expense) => applyExpense x { e with expense_type := t })
        = applyExpense := by
      funext x e
      rfl
    rw [hfun]

/-- C3 counterexample: for the 10-unit transfer entry paid by A whose split
names the recipient B, the code credits the payer A with +10, while the claim
requires the payer of a transfer to be debited the full amount, i.e. -10. -/
theorem transfer_entry_counterexample :
    getB (calculateBalances (some gAB) [transferEntry]) "A" = some (some 10) ∧
    some (some (10 : ℚ)) ≠ some (some (-10 : ℚ)) := by
  constructor
  · simp +decide [calculateBalances, initBalances, applyExpense, creditPayer, applySplit,
      getB, setB, jsAdd, jsSub, gAB, pA, pB, transferEntry, mkSplit]
  · intro h
    have h2 : (10 : ℚ) = -10 := Option.some.inj (Option.some.inj h)
    norm_num at h2

/-- C4 amended: settlements never enter the balance computation — its only
inputs are the group and the expenses.  Applying the settlement rule stated by
the spec (`applySettlement`) to the computed balances changes the balance of
the from participant whenever the amount is nonzero and the two participants
differ, so the computed balances cannot already reflect recorded settlements. -/
theorem settlements_not_applied (g : Group) (es : List Expense) (s : Settlement) (q : ℚ)
    (hfrom : getB (calculateBalances (some g) es) s.from_participant_id = some (some q))
    (hto : s.to_participant_id ≠ s.from_participant_id)
    (hamt : s.amount ≠ 0) :
    getB (applySettlements (calculateBalances (some g) es) [s]) s.from_participant_id
      ≠ getB (calculateBalances (some g) es) s.from_participant_id := by
  have h1 : getB (applySettlements (calculateBalances (some g) es) [s])
      s.from_participant_id = some (some (q - s.amount)) := by
    simp only [applySettlements, List.foldl_cons, List.foldl_nil, applySettlement]
    rw [getB_setB_ne _ _ _ _ (fun hh => hto (Eq.symm hh)), getB_setB_self, hfrom]
    rfl
  rw [h1, hfrom]
  intro h
  have h2 : q - s.amount = q := Option.some.inj (Option.some.inj h)
  apply hamt
  linarith

/-- Witness for C4 amended: with no expenses, applying the 10-unit settlement
from A to B changes the balance of A. -/
theorem settlements_not_applied_witness :
    getB (applySettlements (calculateBalances (some gAB) []) [stlAB]) "A"
      ≠ getB (calculateBalances (some gAB) []) "A" := by
  have h := settlements_not_applied gAB [] stlAB 0
    (by simp +decide [calculateBalances, initBalances, getB, setB, gAB, pA, pB, stlAB])
    (by decide) (by norm_num [stlAB])
  exact h

/-- C4 counterexample: with participants A and B, no expenses and the recorded
10-unit settlement from A to B, the claim requires the balance of A to be
debited to -10; the code computes 0 for A because settlements are never read
by the computation (`applySettlement` is the rule the spec describes). -/
theorem settlement_ignored_counterexample :
    getB (calculateBalances (some gAB) []) "A" = some (some 0) ∧
    getB (applySettlements (calculateBalances (some gAB) []) [stlAB]) "A"
      = some (some (-10)) ∧
    some (some (0 : ℚ)) ≠ some (some (-10 : ℚ)) := by
  refine ⟨?_, ?_, ?_⟩
  · simp +decide [calculateBalances, initBalances, getB, setB, gAB, pA, pB]
  · simp +decide [applySettlements, applySettlement, calculateBalances, initBalances,
      getB, setB, jsAdd, jsSub, gAB, pA, pB, stlAB]
  · intro h
    have h2 : (0 : ℚ) = -10 := Option.some.inj (Option.some.inj h)
    norm_num at h2

/-- C5 amended: the balance computation is total and exposes no error channel;
when aggregation produces a NaN balance (for instance from a corrupt split
naming an id outside the group), the caller silently coerces the NaN to zero
through `balances[participant.id] || 0` instead of raising a validation
error. -/
theorem nan_balance_displayed_zero (g : Option Group) (es : List Expense) (pid : String)
    (h : getB (calculateBalances g es) pid = some none) :
    displayBalance (calculateBalances g es) pid = 0 := by
  unfold displayBalance
  rw [h]

/-- Witness for C5 amended: the corrupt split on the unknown ghost id yields a
NaN balance for that id, displayed as 0. -/
theorem nan_balance_displayed_zero_witness :
    displayBalance (calculateBalances (some gAB) [corruptExpense]) "ghost" = 0 :=
  nan_balance_displayed_zero (some gAB) [corruptExpense] "ghost" (by
    simp +decide [calculateBalances, initBalances, applyExpense, creditPayer, applySplit,
      getB, setB, jsAdd, jsSub, gAB, pA, pB, corruptExpense, mkSplit])

/-- C5 counterexample: the corrupt split produces a NaN balance for the ghost
id, no error of any kind is raised (the computation totally returns a
mapping), and the caller displays the NaN as a silent 0. -/
theorem nan_balance_coerced_counterexample :
    getB (calculateBalances (some gAB) [corruptExpense]) "ghost" = some none ∧
    displayBalance (calculateBalances (some gAB) [corruptExpense]) "ghost" = 0 := by
  constructor
  · simp +decide [calculateBalances, initBalances, applyExpense, creditPayer, applySplit,
      getB, setB, jsAdd, jsSub, gAB, pA, pB, corruptExpense, mkSplit]
  · simp +decide [displayBalance, calculateBalances, initBalances, applyExpense,
      creditPayer, applySplit, getB, setB, jsAdd, jsSub, gAB, pA, pB, corruptExpense,
      mkSplit]

/-- C6 counterexample: under the split rule of the spec (remainder minor units
to the first participants in input order) the shares of the 100-unit equal
split across A, B, C are 33.34, 33.33, 33.33, so the computed balances are
A = +66.66 and C = -33.33 — not the +66.67 and -33.34 the claim states. -/
theorem equal_split_scenario_counterexample :
    displayBalance balances100 "A" = 6666 / 100 ∧ ((6666 : ℚ) / 100 ≠ 6667 / 100) ∧
    displayBalance balances100 "C" = -3333 / 100 ∧ ((-3333 : ℚ) / 100 ≠ -3334 / 100) := by
  refine ⟨?_, by norm_num, ?_, by norm_num⟩
  · simp +decide [balances100, displayBalance, calculateBalances, initBalances, applyExpense,
      creditPayer, applySplit, getB, setB, jsAdd, jsSub, gABC, pA, pB, pC, expense100,
      equalSplitMinor, minorSplit, mkSplit, List.enum]
    norm_num
  · simp +decide [balances100, displayBalance, calculateBalances, initBalances, applyExpense,
      creditPayer, applySplit, getB, setB, jsAdd, jsSub, gABC, pA, pB, pC, expense100,
      equalSplitMinor, minorSplit, mkSplit, List.enum]
    norm_num

/-- C6 amended (spec-modelled split calculator): three participants A, B, C
and one equal-split 100-unit expense paid by A give balances A = +66.66,
B = -33.33, C = -33.33 — the remainder minor unit goes to the first
participant in input order, which is the payer A — and the balances sum to
zero. -/
theorem equal_split_scenario_amended :
    displayBalance balances100 "A" = 6666 / 100 ∧
    displayBalance balances100 "B" = -3333 / 100 ∧
    displayBalance balances100 "C" = -3333 / 100 ∧
    displayBalance balances100 "A" + displayBalance balances100 "B"
      + displayBalance balances100 "C" = 0 := by
  refine ⟨?_, ?_, ?_, ?_⟩ <;>
  · simp +decide [balances100, displayBalance, calculateBalances, initBalances, applyExpense,
      creditPayer, applySplit, getB, setB, jsAdd, jsSub, gABC, pA, pB, pC, expense100,
      equalSplitMinor, minorSplit, mkSplit, List.enum]
    norm_num

/-- C8 (spec-modelled split calculator): the exact-amount policy fails with
the split-mismatch error exactly when the sum of the provided custom amounts
differs from the entry amount by more than the 0.01 epsilon; in particular the
50-unit entry with custom amounts 20 and 35 is rejected. -/
theorem computeSplitsExact_mismatch (amount : ℚ) (custom : List (String × ℚ)) :
    (computeSplitsExact amount custom = Except.error SplitError.splitMismatch ↔
      (1 : ℚ) / 100 < |(custom.map (fun c => c.2)).sum - amount|) ∧
    computeSplitsExact 50 [("A", 20), ("B", 35)] = Except.error SplitError.splitMismatch := by
  constructor
  · unfold computeSplitsExact
    split_ifs with h
    · exact iff_of_true rfl h
    · exact iff_of_false (by simp) h
  · norm_num [computeSplitsExact]

/-- C9: fetching a group by id fails with the not-found error when no group
row carries the requested id, and on success returns the matching group record
together with the complete list of the participants whose group reference is
the requested group — never a partial group. -/
theorem getGroupById_spec (db : Db) (gid : String) :
    ((∀ gr ∈ db.groups, gr.id ≠ gid) →
      getGroupById db gid = Except.error FetchError.notFound) ∧
    (∀ g, getGroupById db gid = Except.ok g →
      g.id = gid ∧
      (∃ gr ∈ db.groups, gr.id = gid ∧ g.name = gr.name ∧ g.description = gr.description) ∧
      g.participants = db.participants.filter (fun p => p.group_id == some gid)) := by
  constructor
  · intro habs
    have hf : db.groups.filter (fun gr => gr.id == gid) = [] := by
      rw [List.filter_eq_nil_iff]
      intro a ha
      simp [habs a ha]
    unfold getGroupById
    rw [hf]
  · intro g hg
    unfold getGroupById at hg
    rcases hfil : db.groups.filter (fun gr => gr.id == gid) with _ | ⟨gr, rest⟩
    · rw [hfil] at hg
      exact Except.noConfusion hg
    · rcases rest with _ | ⟨gr2, rest2⟩
      · rw [hfil] at hg
        have hgmem : gr ∈ db.groups.filter (fun gr => gr.id == gid) := by
          rw [hfil]
          exact List.mem_cons_self _ _
        have hmf := List.mem_filter.mp hgmem
        have hid : gr.id = gid := by
          have hb := hmf.2
          simpa using hb
        injection hg with hgeq
        subst hgeq
        exact ⟨hid, ⟨gr, hmf.1, hid, rfl, rfl⟩, rfl⟩
      · rw [hfil] at hg
        exact Except.noConfusion hg

/-- Witness for C9: on the concrete snapshot, an unknown id yields the
not-found error, and the successful fetch of group g carries exactly the
participants of that group. -/
theorem getGroupById_spec_witness :
    getGroupById dbW "zzz" = Except.error FetchError.notFound ∧
    (gResW.id = "g" ∧
      gResW.participants = dbW.participants.filter (fun p => p.group_id == some "g")) := by
  constructor
  · exact (getGroupById_spec dbW "zzz").1 (by decide)
  · have h := (getGroupById_spec dbW "g").2 gResW (by rfl)
    exact ⟨h.1, h.2.2⟩

end GroupExpense
